import Mathlib

/-!
Formal model of the DEM-assisted low-resolution disparity estimator
(`DemDisparity.cc`) and of the CSM camera-model wrapper (`CsmModel.cc`)
from the Ames Stereo Pipeline sources, with proofs of the behavioural
properties stated in the specification.

The per-pixel geometry (the camera models, the VisionWorkbench ray/DEM
intersector `camera_pixel_to_dem_xyz`, the georeference conversions and
the right-image transform) lives in external collaborator libraries;
those collaborators are abstracted as function-valued parameters of a
`Scene`.  Everything `DemDisparity.cc` itself computes — control flow,
the `pixel_sample` stride, the per-row warm start, the three-point
perturbation and the disparity bracket, the rounding of the outputs, and
the DEM crop-box estimation along the tile diagonals — is translated
directly from the source.  Image-space arithmetic is modelled over `ℚ`
so every definition is executable; the CSM pixel-convention and
ray-normalisation facts are modelled over `ℝ`.
-/

/- Restore kernel-reducibility of the rational-number operations so that
concrete scenes can be evaluated by `decide`. -/
attribute [local semireducible] Rat.mul Rat.inv Rat.add Rat.sub Rat.ofScientific

/-- A 2D real-valued pixel / vector (`vw::Vector2`), modelled over `ℚ`. -/
abbrev V2 : Type := ℚ × ℚ

/-- A 3D point / vector (`vw::Vector3`), modelled over `ℚ`. -/
abbrev V3 : Type := ℚ × ℚ × ℚ

/-- Integer pixel location. -/
abbrev IPt : Type := ℤ × ℤ

/-- A raw integer box, as a (min corner, max corner) pair of `vw::BBox2i`
fields.  `grow` treats the max corner inclusively; `crop` of an image
region treats it exclusively — exactly the VisionWorkbench convention. -/
abbrev RawBox : Type := IPt × IPt

/-- The tile / image bounding box `vw::BBox2i` (min inclusive, max
exclusive), as used for `prerasterize(bbox)`. -/
structure Box2i where
  minx : ℤ
  miny : ℤ
  maxx : ℤ
  maxy : ℤ
deriving DecidableEq

/-- Membership of an integer pixel in a `Box2i` (min inclusive, max
exclusive), i.e. the pixels visited by the `prerasterize` loops. -/
def memBox (b : Box2i) (p : IPt) : Prop :=
  b.minx ≤ p.1 ∧ p.1 < b.maxx ∧ b.miny ≤ p.2 ∧ p.2 < b.maxy

instance (b : Box2i) (p : IPt) : Decidable (memBox b p) :=
  inferInstanceAs (Decidable
    (b.minx ≤ p.1 ∧ p.1 < b.maxx ∧ b.miny ≤ p.2 ∧ p.2 < b.maxy))

/-- Membership in a raw box with the max corner read inclusively
(the convention of `BBox::grow`). -/
def inRawI (b : RawBox) (q : IPt) : Prop :=
  b.1.1 ≤ q.1 ∧ q.1 ≤ b.2.1 ∧ b.1.2 ≤ q.2 ∧ q.2 ≤ b.2.2

instance (b : RawBox) (q : IPt) : Decidable (inRawI b q) :=
  inferInstanceAs (Decidable
    (b.1.1 ≤ q.1 ∧ q.1 ≤ b.2.1 ∧ b.1.2 ≤ q.2 ∧ q.2 ≤ b.2.2))

/-- Membership in a raw box with the max corner read exclusively
(the convention of cropping an image region to a box). -/
def inRawE (b : RawBox) (q : IPt) : Prop :=
  b.1.1 ≤ q.1 ∧ q.1 < b.2.1 ∧ b.1.2 ≤ q.2 ∧ q.2 < b.2.2

instance (b : RawBox) (q : IPt) : Decidable (inRawE b q) :=
  inferInstanceAs (Decidable
    (b.1.1 ≤ q.1 ∧ q.1 < b.2.1 ∧ b.1.2 ≤ q.2 ∧ q.2 < b.2.2))

/-- The numeric-policy parameters handed to the VisionWorkbench ray/DEM
intersector `camera_pixel_to_dem_xyz`. -/
structure TolParams where
  height_error_tol : ℚ
  max_abs_tol : ℚ
  max_rel_tol : ℚ
  num_max_iter : ℤ
deriving DecidableEq

/-- The tolerance values computed inside `lowResPixToDemXyz`
(`DemDisparity.cc`, lines 80–83, duplicated at lines 189–192):
`height_error_tol = max(dem_error/4, 1.0)`, `max_abs_tol =
height_error_tol/4`, `max_rel_tol = 1e-14`, `num_max_iter = 50`. -/
def demTolParams (demError : ℚ) : TolParams :=
  { height_error_tol := max (demError / 4) 1
    max_abs_tol := (max (demError / 4) 1) / 4
    max_rel_tol := 1 / 10 ^ 14
    num_max_iter := 50 }

/-- All construction-time inputs of a `DemDisparity` view, with the
external collaborators abstracted as functions:
* `cam p` — `camera_center` and `pixel_to_vector` of the left camera at
  full-resolution pixel `p` (`none` when either call throws);
* `txLeftRev` — `tx_left->reverse`;
* `intersectFull` — `camera_pixel_to_dem_xyz` against the full DEM
  `m_dem` with `m_dem_georef`, as a function of the tolerance parameters,
  camera centre, camera vector, previous solution and height guess;
* `intersectCrop cb` — the same intersector against the in-memory DEM
  crop with cropped georeference, for crop box `cb`;
* `rightProj` — `m_right_camera_model->point_to_pixel` followed by
  `m_tx_right->forward` (`none` when either throws);
* `demPix xyz` — `round(m_dem_georef.lonlat_to_pixel(
  cartesian_to_geodetic(xyz)))`;
* `demBBox` — `bounding_box(m_dem)` (min inclusive, max exclusive);
* `downsampleScale`, `demError`, `pixelSample`, `heightGuess` — the
  corresponding member fields. -/
structure Scene where
  cam : V2 → Option (V3 × V3)
  txLeftRev : V2 → V2
  intersectFull : TolParams → V3 → V3 → V3 → ℚ → Bool × V3
  intersectCrop : Option RawBox → TolParams → V3 → V3 → V3 → ℚ → Bool × V3
  rightProj : V3 → Option V2
  demPix : V3 → IPt
  demBBox : RawBox
  downsampleScale : V2
  demError : ℚ
  pixelSample : ℤ
  heightGuess : ℚ

/-- Model of `lowResPixToDemXyz` (`DemDisparity.cc`, lines 55–99): make the
low-resolution pixel full-resolution (`elem_quot`), undo the left
transform, query the left camera, and intersect the ray with the DEM
using the hard-coded tolerances `demTolParams demError`.  Returns
(`some (left_camera_vec, xyz)` on success, updated `prev_xyz`); the
previous solution is updated only on success.  An intersection that
reports success but returns the origin `Vector3()` is treated as
failure, exactly as the source's `xyz == Vector3()` test. -/
def lowResPixToDemXyz (cam : V2 → Option (V3 × V3)) (txRev : V2 → V2)
    (downsampleScale : V2) (demError : ℚ)
    (intersect : TolParams → V3 → V3 → V3 → ℚ → Bool × V3)
    (heightGuess : ℚ) (prevXyz : V3) (pix : V2) :
    Option (V3 × V3) × V3 :=
  match cam (txRev (pix.1 / downsampleScale.1, pix.2 / downsampleScale.2)) with
  | none => (none, prevXyz)
  | some (ctr, vec) =>
    let r := intersect (demTolParams demError) ctr vec prevXyz heightGuess
    if r.1 = false ∨ r.2 = ((0 : ℚ), (0 : ℚ), (0 : ℚ)) then (none, prevXyz)
    else (some (vec, r.2), r.2)

/-- The (up to three) valid low-resolution disparity offsets obtained by
perturbing `xyz` by `bias * dem_error` along the left camera ray with
`bias ∈ {-1, 1, 0}` and reprojecting through the right camera and right
transform (`DemDisparity.cc`, lines 269–295).  When both endpoint
reprojections (`bias = -1` and `bias = 1`) succeed the loop breaks
before the `bias = 0` sample, exactly as in the source. -/
def dispEntries (s : Scene) (leftPix : V2) (vec xyz : V3) : List V2 :=
  let biased : ℚ → V3 := fun b =>
    (xyz.1 + b * s.demError * vec.1,
     xyz.2.1 + b * s.demError * vec.2.1,
     xyz.2.2 + b * s.demError * vec.2.2)
  let reproj : V3 → Option V2 := fun p =>
    (s.rightProj p).map (fun q =>
      (q.1 * s.downsampleScale.1 - leftPix.1,
       q.2 * s.downsampleScale.2 - leftPix.2))
  let p0 := reproj (biased (-1))
  let p1 := reproj (biased 1)
  let p2 := reproj (biased 0)
  match p0, p1 with
  | some a, some b => [a, b]
  | _, _ => p0.toList ++ p1.toList ++ p2.toList

/-- The sentinel `BBox2f(0,0,0,0)`: min corner `(0,0)`, max corner
`(0,0)`. -/
def zeroBox : V2 × V2 := ((0, 0), (0, 0))

/-- Growing a (min, max) accumulator by one disparity value. -/
def growRange (acc : V2 × V2) (q : V2) : V2 × V2 :=
  ((min acc.1.1 q.1, min acc.1.2 q.2), (max acc.2.1 q.1, max acc.2.2 q.2))

/-- Model of `vw::stereo::get_disparity_range` on the valid entries: the
componentwise bounding box of the valid disparities, and
`BBox2f(0,0,0,0)` when no entry is valid. -/
def getDisparityRange : List V2 → V2 × V2
  | [] => zeroBox
  | a :: rest => rest.foldl growRange (a, a)

/-- One iteration of the inner column loop of
`DemDisparity::prerasterize` (lines 249–303) at pixel `(col, row)`:
intersect the left ray with the cropped DEM (crop box `cb`,
warm-started from `prev`), build the disparity bracket, and reject it
when it equals `BBox2f(0,0,0,0)`.  Returns the bracket (search-range
min and max) on success, plus the updated previous solution. -/
def perPixel (s : Scene) (cb : Option RawBox) (prev : V3) (col row : ℤ) :
    Option (V2 × V2) × V3 :=
  match lowResPixToDemXyz s.cam s.txLeftRev s.downsampleScale s.demError
      (s.intersectCrop cb) s.heightGuess prev ((col : ℚ), (row : ℚ)) with
  | (none, p2) => (none, p2)
  | (some (vec, xyz), p2) =>
    let rng := getDisparityRange (dispEntries s ((col : ℚ), (row : ℚ)) vec xyz)
    if rng = zeroBox then (none, p2) else (some rng, p2)

/-- The disparity search range computed at a pixel (before the
`search_range == BBox2f(0,0,0,0)` rejection): `none` when the ray/DEM
intersection itself failed. -/
def pixelSearchRange (s : Scene) (cb : Option RawBox) (prev : V3)
    (col row : ℤ) : Option (V2 × V2) :=
  match lowResPixToDemXyz s.cam s.txLeftRev s.downsampleScale s.demError
      (s.intersectCrop cb) s.heightGuess prev ((col : ℚ), (row : ℚ)) with
  | (none, _) => none
  | (some (vec, xyz), _) =>
    some (getDisparityRange (dispEntries s ((col : ℚ), (row : ℚ)) vec xyz))

/-- Rounding as `std::round` — round half away from zero, as applied componentwise
by `round(...)` on a `vw::Vector2`. -/
def roundAway (x : ℚ) : ℚ :=
  if 0 ≤ x then (Int.floor (x + 1 / 2) : ℚ) else (Int.ceil (x - 1 / 2) : ℚ)

/-- Componentwise `round` of a `vw::Vector2`. -/
def roundV2 (v : V2) : V2 := (roundAway v.1, roundAway v.2)

/-- Componentwise `ceil` of a `vw::Vector2`, stored into a
`Vector2i`. -/
def ceilV2 (v : V2) : IPt := (Int.ceil v.1, Int.ceil v.2)

/-- The midpoint `(search_range.min() + search_range.max())/2.0`. -/
def midV2 (mn mx : V2) : V2 := ((mn.1 + mx.1) / 2, (mn.2 + mx.2) / 2)

/-- The half-width `(search_range.max() - search_range.min())/2.0`. -/
def halfV2 (mn mx : V2) : V2 := ((mx.1 - mn.1) / 2, (mx.2 - mn.2) / 2)

/-- The pair of values written at a successful pixel
(`DemDisparity.cc`, lines 301–302): the rounded bracket midpoint into
the disparity image and the bracket half-width rounded up into the
spread image. -/
def writeOfBracket (r : V2 × V2) : V2 × IPt :=
  (roundV2 (midV2 r.1 r.2), ceilV2 (halfV2 r.1 r.2))

/-- The inner column loop, recording for each successful sampled column
the pair of values written to the two output images.  Columns with
`col % pixel_sample != 0` are skipped; the previous solution `prev`
threads through the remaining columns of the row. -/
def writeScanCols (s : Scene) (cb : Option RawBox) (row : ℤ) :
    V3 → List ℤ → List (ℤ × (V2 × IPt))
  | _, [] => []
  | prev, c :: rest =>
    if c % s.pixelSample ≠ 0 then writeScanCols s cb row prev rest
    else
      match perPixel s cb prev c row with
      | (none, p2) => writeScanCols s cb row p2 rest
      | (some rng, p2) => (c, writeOfBracket rng) :: writeScanCols s cb row p2 rest

/-- The inner column loop, recording for each successful sampled column
the accepted disparity bracket itself. -/
def bracketScanCols (s : Scene) (cb : Option RawBox) (row : ℤ) :
    V3 → List ℤ → List (ℤ × (V2 × V2))
  | _, [] => []
  | prev, c :: rest =>
    if c % s.pixelSample ≠ 0 then bracketScanCols s cb row prev rest
    else
      match perPixel s cb prev c row with
      | (none, p2) => bracketScanCols s cb row p2 rest
      | (some rng, p2) => (c, rng) :: bracketScanCols s cb row p2 rest

/-- The columns `bbox.min().x() <= col < bbox.max().x()` of a tile. -/
def colList (b : Box2i) : List ℤ :=
  (List.range (b.maxx - b.minx).toNat).map (fun i => b.minx + (i : ℤ))

/-- First-match association-list lookup by column. -/
def lookupCol {α : Type} (c : ℤ) : List (ℤ × α) → Option α
  | [] => none
  | (k, v) :: rest => if c = k then some v else lookupCol c rest

/-- The evenly spaced sample points on the two diagonals of the tile
(`DemDisparity.cc`, lines 202–208). -/
def diagPoints (b : Box2i) : List V2 :=
  let wid : ℤ := (b.maxx - b.minx) - 1
  let hgt : ℤ := (b.maxy - b.miny) - 1
  let dim : ℤ := max 1 ((max wid hgt) / 10)
  ((List.range (dim.toNat + 1)).map (fun i =>
    ((b.minx : ℚ) + (i : ℚ) * (wid : ℚ) / (dim : ℚ),
     (b.miny : ℚ) + (i : ℚ) * (hgt : ℚ) / (dim : ℚ)))) ++
  ((List.range (dim.toNat + 1)).map (fun i =>
    ((b.minx : ℚ) + (i : ℚ) * (wid : ℚ) / (dim : ℚ),
     (b.miny : ℚ) + (hgt : ℚ) - (i : ℚ) * (hgt : ℚ) / (dim : ℚ))))

/-- Model of `BBox2i::grow` on a possibly still-empty box (a default-constructed
`BBox2i` is empty; growing it by a point yields the degenerate box at
that point). -/
def growBoxPt (b : Option RawBox) (p : IPt) : Option RawBox :=
  match b with
  | none => some (p, p)
  | some (mn, mx) =>
    some ((min mn.1 p.1, min mn.2 p.2), (max mx.1 p.1, max mx.2 p.2))

/-- The diagonal-sampling loop (`DemDisparity.cc`, lines 211–228):
intersect each diagonal sample with the full DEM (warm-started across
samples) and grow the DEM box by the hit DEM pixel on success. -/
def diagScan (s : Scene) : V3 → Option RawBox → List V2 → Option RawBox
  | _, b, [] => b
  | prev, b, q :: rest =>
    match lowResPixToDemXyz s.cam s.txLeftRev s.downsampleScale s.demError
        s.intersectFull s.heightGuess prev q with
    | (none, p2) => diagScan s p2 b rest
    | (some (_, xyz), p2) => diagScan s p2 (growBoxPt b (s.demPix xyz)) rest

/-- The DEM pixels hit by the diagonal samples whose intersection
succeeded (same traversal and warm-start threading as `diagScan`). -/
def diagHitList (s : Scene) : V3 → List V2 → List IPt
  | _, [] => []
  | prev, q :: rest =>
    match lowResPixToDemXyz s.cam s.txLeftRev s.downsampleScale s.demError
        s.intersectFull s.heightGuess prev q with
    | (none, p2) => diagHitList s p2 rest
    | (some (_, xyz), p2) => s.demPix xyz :: diagHitList s p2 rest

/-- The DEM pixels hit by the diagonal samples of a tile, starting from
the default-constructed `prev_xyz`. -/
def demDiagHits (s : Scene) (bbox : Box2i) : List IPt :=
  diagHitList s ((0 : ℚ), (0 : ℚ), (0 : ℚ)) (diagPoints bbox)

/-- Model of `BBox::expand`. -/
def expandBox (b : RawBox) (e : ℤ) : RawBox :=
  ((b.1.1 - e, b.1.2 - e), (b.2.1 + e, b.2.2 + e))

/-- Model of `BBox::crop` — intersect with another box. -/
def cropBox (b other : RawBox) : RawBox :=
  ((max b.1.1 other.1.1, max b.1.2 other.1.2),
   (min b.2.1 other.2.1, min b.2.2 other.2.2))

/-- The final DEM crop box of a tile (`DemDisparity.cc`, lines
210–238): grow over the diagonal hits, expand by
`max(100, (int)(0.1 * max(width, height)))`, crop to
`bounding_box(m_dem)`.  `none` models the empty default box when no
diagonal sample intersected the DEM. -/
def demBoxFinal (s : Scene) (bbox : Box2i) : Option RawBox :=
  match diagScan s ((0 : ℚ), (0 : ℚ), (0 : ℚ)) none (diagPoints bbox) with
  | none => none
  | some b =>
    let w := b.2.1 - b.1.1
    let h := b.2.2 - b.1.2
    let e := max 100 ((max w h) / 10)
    some (cropBox (expandBox b e) s.demBBox)

/-- The per-row write list of the main loop, with `prev_xyz` wiped to
`Vector3()` at the start of the row (`DemDisparity.cc`, line 247). -/
def rowWrites (s : Scene) (bbox : Box2i) (row : ℤ) : List (ℤ × (V2 × IPt)) :=
  writeScanCols s (demBoxFinal s bbox) row ((0 : ℚ), (0 : ℚ), (0 : ℚ)) (colList bbox)

/-- The per-row accepted-bracket list of the main loop. -/
def rowBrackets (s : Scene) (bbox : Box2i) (row : ℤ) : List (ℤ × (V2 × V2)) :=
  bracketScanCols s (demBoxFinal s bbox) row ((0 : ℚ), (0 : ℚ), (0 : ℚ)) (colList bbox)

/-- The accepted disparity bracket at an output pixel: `none` for
pixels outside the tile, on unsampled rows or columns, and wherever the
intersection failed or the search range was rejected. -/
def bracketAt (s : Scene) (bbox : Box2i) (p : IPt) : Option (V2 × V2) :=
  if memBox bbox p ∧ p.2 % s.pixelSample = 0 then
    lookupCol p.1 (rowBrackets s bbox p.2)
  else none

/-- The disparity block returned by `prerasterize(bbox)`: every pixel
of the tile is first invalidated (lines 180–187), then the sampled
successful pixels are overwritten with the rounded bracket midpoint
(line 301).  Pixels outside `bbox` are not materialised and read as
invalid. -/
def dispAt (s : Scene) (bbox : Box2i) (p : IPt) : Option V2 :=
  if memBox bbox p ∧ p.2 % s.pixelSample = 0 then
    (lookupCol p.1 (rowWrites s bbox p.2)).map Prod.fst
  else none

/-- The contents of the shared spread image `m_disp_spread` after
`prerasterize(bbox)`: inside the tile every pixel is invalidated and the
sampled successful pixels are overwritten with the rounded-up bracket
half-width (line 302); outside the tile the previous contents `sp0`
are untouched. -/
def spreadAfter (s : Scene) (bbox : Box2i) (sp0 : IPt → Option IPt)
    (p : IPt) : Option IPt :=
  if memBox bbox p then
    (if p.2 % s.pixelSample = 0 then
      (lookupCol p.1 (rowWrites s bbox p.2)).map Prod.snd
    else none)
  else sp0 p

/-- Model of `DemDisparity::prerasterize(bbox)` as a state transformer: from the
construction-time inputs `s` and the prior contents `sp0` of the spread
image, produce the materialised disparity block and the new contents of
the spread image. -/
def prerasterizeDD (s : Scene) (bbox : Box2i) (sp0 : IPt → Option IPt) :
    (IPt → Option V2) × (IPt → Option IPt) :=
  (fun p => dispAt s bbox p, fun p => spreadAfter s bbox sp0 p)

/-- The DEM pixel a tile pixel's ray hits on the full DEM (the same
composite the diagonal sampling uses): `none` when the intersection
fails. -/
def demHitPix (s : Scene) (prev : V3) (pix : V2) : Option IPt :=
  match lowResPixToDemXyz s.cam s.txLeftRev s.downsampleScale s.demError
      s.intersectFull s.heightGuess prev pix with
  | (some (_, xyz), _) => some (s.demPix xyz)
  | (none, _) => none

/-- The configuration-error taxonomy of `produce_dem_disparity`
(`DemDisparity.cc`, lines 334–347). -/
inductive DemDispConfigError where
  | noDemFile : DemDispConfigError
  | negativeDemError : DemDispConfigError
  | noGeoref : DemDispConfigError
deriving DecidableEq

/-- The fatal configuration checks at the top of
`produce_dem_disparity`, in source order: throw when no
disparity-estimation DEM was provided, when
`disparity_estimation_dem_error < 0.0`, and when the DEM file has no
georeference.  `none` means no configuration error: the run proceeds to
compute the disparity. -/
def produceDemDisparityConfigCheck (demFile : String) (demError : ℚ)
    (hasGeoref : Bool) : Option DemDispConfigError :=
  if demFile = "" then some DemDispConfigError.noDemFile
  else if demError < 0 then some DemDispConfigError.negativeDemError
  else if hasGeoref = false then some DemDispConfigError.noGeoref
  else none

/-- Trivially empty initial contents for the spread image. -/
def spInit : IPt → Option IPt := fun _ => none

/-- A one-pixel tile at the origin. -/
def box1 : Box2i := { minx := 0, miny := 0, maxx := 1, maxy := 1 }

/-- A concrete scene in which the single pixel `(0,0)` succeeds with a
constant right reprojection `(5,7)` and `dem_error = 0`, so the
disparity bracket is zero-width at the nonzero offset `(5,7)`. -/
def sceneZeroWidth : Scene :=
  { cam := fun _ => some (((0 : ℚ), 0, 0), ((0 : ℚ), 0, 1))
    txLeftRev := id
    intersectFull := fun _ _ _ _ _ => (true, ((0 : ℚ), 0, 1))
    intersectCrop := fun _ _ _ _ _ _ => (true, ((0 : ℚ), 0, 1))
    rightProj := fun _ => some ((5 : ℚ), 7)
    demPix := fun _ => (0, 0)
    demBBox := ((0, 0), (10, 10))
    downsampleScale := (1, 1)
    demError := 0
    pixelSample := 1
    heightGuess := 0 }

/-- A 64×64 tile at the origin, the tile size set by
`produce_dem_disparity`. -/
def box64 : Box2i := { minx := 0, miny := 0, maxx := 64, maxy := 64 }

/-- A concrete scene on a 1000×1000 DEM in which every intersection
succeeds, every diagonal sample of the 64×64 tile at the origin hits
DEM pixel `(0,0)`, but the ray of the interior tile pixel `(1,2)` hits
DEM pixel `(500,500)`. -/
def sceneDiagMiss : Scene :=
  { cam := fun p => some (((0 : ℚ), 0, 7), (p.1, p.2, 1))
    txLeftRev := id
    intersectFull := fun _ _ vec _ _ => (true, vec)
    intersectCrop := fun _ _ _ vec _ _ => (true, vec)
    rightProj := fun _ => some ((0 : ℚ), 0)
    demPix := fun v => if v.1 = 1 ∧ v.2.1 = 2 then (500, 500) else (0, 0)
    demBBox := ((0, 0), (1000, 1000))
    downsampleScale := (1, 1)
    demError := 0
    pixelSample := 1
    heightGuess := 0 }

/-- A family of scenes identical in every construction-time input
except `dem_error`: the right reprojection moves the ground point's
along-ray height `z` to column `10 (z - 1)` inside the window
`0 ≤ z ≤ 2` and clamps to column `0` outside it, at constant row `5`. -/
def sceneWindow (e : ℚ) : Scene :=
  { cam := fun _ => some (((0 : ℚ), 0, 0), ((0 : ℚ), 0, 1))
    txLeftRev := id
    intersectFull := fun _ _ _ _ _ => (true, ((0 : ℚ), 0, 1))
    intersectCrop := fun _ _ _ _ _ _ => (true, ((0 : ℚ), 0, 1))
    rightProj := fun v =>
      some (if 0 ≤ v.2.2 ∧ v.2.2 ≤ 2 then 10 * (v.2.2 - 1) else 0, 5)
    demPix := fun _ => (0, 0)
    demBBox := ((0, 0), (10, 10))
    downsampleScale := (1, 1)
    demError := e
    pixelSample := 1
    heightGuess := 0 }

/-- A concrete scene with `pixel_sample = 2` and a 4×4 tile, in which
every sampled pixel succeeds with right reprojection `(3, 4)`. -/
def sceneStride : Scene :=
  { cam := fun _ => some (((0 : ℚ), 0, 0), ((0 : ℚ), 0, 1))
    txLeftRev := id
    intersectFull := fun _ _ _ _ _ => (true, ((0 : ℚ), 0, 1))
    intersectCrop := fun _ _ _ _ _ _ => (true, ((0 : ℚ), 0, 1))
    rightProj := fun _ => some ((3 : ℚ), 4)
    demPix := fun _ => (0, 0)
    demBBox := ((0, 0), (10, 10))
    downsampleScale := (1, 1)
    demError := 0
    pixelSample := 2
    heightGuess := 0 }

/-- A 4×4 tile at the origin. -/
def box4 : Box2i := { minx := 0, miny := 0, maxx := 4, maxy := 4 }

/-- An intersector that succeeds at every tolerance setting. -/
def probeAllTol : TolParams → V3 → V3 → V3 → ℚ → Bool × V3 :=
  fun _ _ _ _ _ => (true, ((0 : ℚ), 0, 1))

/-- An intersector that succeeds only when asked for 50 iterations. -/
def probeIterTol : TolParams → V3 → V3 → V3 → ℚ → Bool × V3 :=
  fun t _ _ _ _ =>
    if t.num_max_iter = 50 then (true, ((0 : ℚ), 0, 1))
    else (false, ((0 : ℚ), 0, 0))

/-- A concrete, non-empty disparity-estimation DEM file name. -/
def demTifName : String := "dem.tif"

noncomputable section

/-- A 2D pixel / image coordinate over `ℝ` (CSM `ImageCoord` ≅
`vw::Vector2`). -/
abbrev V2R : Type := ℝ × ℝ

/-- A 3D world / ECEF coordinate over `ℝ` (CSM `EcefCoord` ≅
`vw::Vector3`). -/
abbrev V3R : Type := ℝ × ℝ × ℝ

/-- The shift `ASP_TO_CSM_SHIFT` (`CsmModel.cc`, line 59): the constant
half-pixel shift between the ASP and CSM pixel conventions. -/
def ASP_TO_CSM_SHIFT : V2R := (1 / 2, 1 / 2)

/-- Model of `toCsmPixel` (`CsmModel.cc`, lines 90–93): add the shift. -/
def toCsmPixel (p : V2R) : V2R :=
  (p.1 + ASP_TO_CSM_SHIFT.1, p.2 + ASP_TO_CSM_SHIFT.2)

/-- Model of `fromCsmPixel` (`CsmModel.cc`, lines 94–97): subtract the shift. -/
def fromCsmPixel (p : V2R) : V2R :=
  (p.1 - ASP_TO_CSM_SHIFT.1, p.2 - ASP_TO_CSM_SHIFT.2)

/-- The underlying `csm::RasterGM` sensor model, abstracted by its
three queries used in `CsmModel.cc`: `getSensorPosition`,
`imageToGround (imagePt, groundHeight, desiredPrecision)` and
`groundToImage (groundPt, desiredPrecision)`. -/
structure RasterGM where
  getSensorPosition : V2R → V3R
  imageToGround : V2R → ℝ → ℝ → V3R
  groundToImage : V3R → ℝ → V2R

/-- Model of `asp::CsmModel`: the wrapped sensor model together with
`m_desired_precision`. -/
structure CsmCamera where
  csm : RasterGM
  desired_precision : ℝ

/-- Componentwise difference of 3D vectors. -/
def v3subR (a b : V3R) : V3R := (a.1 - b.1, a.2.1 - b.2.1, a.2.2 - b.2.2)

/-- Componentwise division of a 3D vector by a scalar
(`dir0 / norm_2(dir0)`). -/
def v3divR (v : V3R) (r : ℝ) : V3R := (v.1 / r, v.2.1 / r, v.2.2 / r)

/-- Scalar multiple of a 3D vector. -/
def v3scaleR (k : ℝ) (v : V3R) : V3R := (k * v.1, k * v.2.1, k * v.2.2)

/-- Model of `vw::math::norm_2`: the Euclidean norm. -/
def norm_2R (v : V3R) : ℝ := Real.sqrt (v.1 ^ 2 + v.2.1 ^ 2 + v.2.2 ^ 2)

/-- The camera-to-ground direction `CsmModel::pixel_to_vector`
normalises: ground point at height 0 above the datum minus the sensor
position, both queried at the CSM-convention pixel. -/
def csmDir (m : CsmCamera) (pix : V2R) : V3R :=
  v3subR (m.csm.imageToGround (toCsmPixel pix) 0 m.desired_precision)
    (m.csm.getSensorPosition (toCsmPixel pix))

/-- Model of `CsmModel::pixel_to_vector` (`CsmModel.cc`, lines 578–599): shift
the ASP pixel into the CSM convention, query the sensor position and
the ground point at height 0, and return the normalised difference. -/
def pixel_to_vector (m : CsmCamera) (pix : V2R) : V3R :=
  let imagePt : V2R := (pix.1 + ASP_TO_CSM_SHIFT.1, pix.2 + ASP_TO_CSM_SHIFT.2)
  let ctr := m.csm.getSensorPosition imagePt
  let groundPt := m.csm.imageToGround imagePt 0 m.desired_precision
  let dir0 := v3subR groundPt ctr
  v3divR dir0 (norm_2R dir0)

/-- The same computation as `pixel_to_vector`, but starting from a
pixel already in the CSM convention. -/
def pixelToVectorFromCsm (m : CsmCamera) (imagePt : V2R) : V3R :=
  let ctr := m.csm.getSensorPosition imagePt
  let groundPt := m.csm.imageToGround imagePt 0 m.desired_precision
  let dir0 := v3subR groundPt ctr
  v3divR dir0 (norm_2R dir0)

/-- Model of `CsmModel::camera_center` (`CsmModel.cc`, lines 618–625). -/
def camera_center (m : CsmCamera) (pix : V2R) : V3R :=
  m.csm.getSensorPosition (pix.1 + ASP_TO_CSM_SHIFT.1, pix.2 + ASP_TO_CSM_SHIFT.2)

/-- Model of `CsmModel::point_to_pixel` (`CsmModel.cc`, lines 551–576): project
through `groundToImage` and subtract the shift from the resulting CSM
pixel. -/
def point_to_pixel (m : CsmCamera) (point : V3R) : V2R :=
  ((m.csm.groundToImage point m.desired_precision).1 - ASP_TO_CSM_SHIFT.1,
   (m.csm.groundToImage point m.desired_precision).2 - ASP_TO_CSM_SHIFT.2)

/-- A concrete sensor model: the camera sits at the origin and every
pixel images the ground point `(3, 4, 0)`. -/
def rasterW : RasterGM :=
  { getSensorPosition := fun _ => ((0 : ℝ), 0, 0)
    imageToGround := fun _ _ _ => ((3 : ℝ), 4, 0)
    groundToImage := fun _ _ => ((0 : ℝ), 0) }

/-- The concrete CSM camera wrapping `rasterW` with the default
`m_desired_precision = 1.0e-8`. -/
def csmW : CsmCamera := { csm := rasterW, desired_precision := 1 / 10 ^ 8 }

end

lemma writeScan_eq_map (s : Scene) (cb : Option RawBox) (row : ℤ) :
    ∀ (cols : List ℤ) (prev : V3),
      writeScanCols s cb row prev cols =
        (bracketScanCols s cb row prev cols).map
          (fun e => (e.1, writeOfBracket e.2)) := by
  intro cols
  induction cols with
  | nil => intro prev; rfl
  | cons c rest ih =>
    intro prev
    simp only [writeScanCols, bracketScanCols]
    by_cases hc : c % s.pixelSample ≠ 0
    · simp only [if_pos hc, ih]
    · simp only [if_neg hc]
      rcases hp : perPixel s cb prev c row with ⟨o, p2⟩
      cases o with
      | none => simp [ih]
      | some rng => simp [ih]

lemma lookupCol_map {α β : Type} (f : α → β) (c : ℤ) :
    ∀ l : List (ℤ × α),
      lookupCol c (l.map (fun e => (e.1, f e.2))) = (lookupCol c l).map f := by
  intro l
  induction l with
  | nil => rfl
  | cons a rest ih =>
    rcases a with ⟨k, v⟩
    by_cases h : c = k <;> simp [lookupCol, h, ih]

lemma lookupCol_bracketScan_not_sampled (s : Scene) (cb : Option RawBox)
    (row : ℤ) :
    ∀ (cols : List ℤ) (prev : V3) (c : ℤ), c % s.pixelSample ≠ 0 →
      lookupCol c (bracketScanCols s cb row prev cols) = none := by
  intro cols
  induction cols with
  | nil => intro prev c _; rfl
  | cons c0 rest ih =>
    intro prev c hc
    simp only [bracketScanCols]
    by_cases hc0 : c0 % s.pixelSample ≠ 0
    · simp only [if_pos hc0]; exact ih prev c hc
    · simp only [if_neg hc0]
      rcases hp : perPixel s cb prev c0 row with ⟨o, p2⟩
      cases o with
      | none => exact ih p2 c hc
      | some rng =>
        have hneq : c ≠ c0 := by
          intro he; rw [he] at hc; exact hc (by simpa using hc0)
        simp [lookupCol, hneq, ih p2 c hc]

lemma dispAt_eq_bracket (s : Scene) (bbox : Box2i) (p : IPt) :
    dispAt s bbox p =
      (bracketAt s bbox p).map (fun r => roundV2 (midV2 r.1 r.2)) := by
  unfold dispAt bracketAt rowWrites rowBrackets
  by_cases hg : memBox bbox p ∧ p.2 % s.pixelSample = 0
  · rw [if_pos hg, if_pos hg, writeScan_eq_map, lookupCol_map]
    cases lookupCol p.1 (bracketScanCols s (demBoxFinal s bbox) p.2
        ((0 : ℚ), (0 : ℚ), (0 : ℚ)) (colList bbox)) <;> rfl
  · rw [if_neg hg, if_neg hg]; rfl

lemma spreadAfter_eq_bracket (s : Scene) (bbox : Box2i)
    (sp0 : IPt → Option IPt) (p : IPt) (hm : memBox bbox p) :
    spreadAfter s bbox sp0 p =
      (bracketAt s bbox p).map (fun r => ceilV2 (halfV2 r.1 r.2)) := by
  unfold spreadAfter bracketAt rowWrites rowBrackets
  rw [if_pos hm]
  by_cases hs : p.2 % s.pixelSample = 0
  · rw [if_pos hs, if_pos ⟨hm, hs⟩, writeScan_eq_map, lookupCol_map]
    cases lookupCol p.1 (bracketScanCols s (demBoxFinal s bbox) p.2
        ((0 : ℚ), (0 : ℚ), (0 : ℚ)) (colList bbox)) <;> rfl
  · rw [if_neg hs, if_neg (fun hg => hs hg.2)]; rfl

lemma bracketAt_not_sampled (s : Scene) (bbox : Box2i) (p : IPt)
    (h : p.1 % s.pixelSample ≠ 0 ∨ p.2 % s.pixelSample ≠ 0) :
    bracketAt s bbox p = none := by
  unfold bracketAt
  by_cases hg : memBox bbox p ∧ p.2 % s.pixelSample = 0
  · rw [if_pos hg]
    cases h with
    | inl h1 =>
      exact lookupCol_bracketScan_not_sampled s (demBoxFinal s bbox) p.2
        (colList bbox) ((0 : ℚ), (0 : ℚ), (0 : ℚ)) p.1 h1
    | inr h2 => exact absurd hg.2 h2
  · rw [if_neg hg]

/-- Claim C1: for every output pixel where the disparity bracket was
successfully computed, the disparity written by
`DemDisparity::prerasterize` is the bracket midpoint rounded
(`std::round`, componentwise) and the companion spread is the bracket
half-width rounded up (`std::ceil`, componentwise); for every pixel
where the intersection or all reprojections failed (`bracketAt = none`)
both outputs remain invalid. -/
theorem c1_rounded_midpoint_and_halfwidth (s : Scene) (bbox : Box2i)
    (sp0 : IPt → Option IPt) (p : IPt) :
    (∀ mn mx, bracketAt s bbox p = some (mn, mx) →
      (prerasterizeDD s bbox sp0).1 p = some (roundV2 (midV2 mn mx)) ∧
      (prerasterizeDD s bbox sp0).2 p = some (ceilV2 (halfV2 mn mx))) ∧
    (memBox bbox p → bracketAt s bbox p = none →
      (prerasterizeDD s bbox sp0).1 p = none ∧
      (prerasterizeDD s bbox sp0).2 p = none) := by
  constructor
  · intro mn mx h
    have hm : memBox bbox p := by
      by_cases hg : memBox bbox p ∧ p.2 % s.pixelSample = 0
      · exact hg.1
      · unfold bracketAt at h; rw [if_neg hg] at h; exact absurd h (by simp)
    constructor
    · show dispAt s bbox p = _
      rw [dispAt_eq_bracket, h]; rfl
    · show spreadAfter s bbox sp0 p = _
      rw [spreadAfter_eq_bracket s bbox sp0 p hm, h]; rfl
  · intro hm h
    constructor
    · show dispAt s bbox p = _
      rw [dispAt_eq_bracket, h]; rfl
    · show spreadAfter s bbox sp0 p = _
      rw [spreadAfter_eq_bracket s bbox sp0 p hm, h]; rfl

theorem c1_witness :
    bracketAt sceneZeroWidth box1 (0, 0) = some (((5 : ℚ), 7), ((5 : ℚ), 7)) ∧
    (prerasterizeDD sceneZeroWidth box1 spInit).1 (0, 0) = some ((5 : ℚ), 7) ∧
    (prerasterizeDD sceneZeroWidth box1 spInit).2 (0, 0) = some ((0 : ℤ), 0) := by
  have hb : bracketAt sceneZeroWidth box1 (0, 0) =
      some (((5 : ℚ), 7), ((5 : ℚ), 7)) := by decide
  have h := (c1_rounded_midpoint_and_halfwidth sceneZeroWidth box1 spInit
    (0, 0)).1 ((5 : ℚ), 7) ((5 : ℚ), 7) hb
  refine ⟨hb, ?_, ?_⟩
  · rw [h.1]; decide
  · rw [h.2]; decide

/-- Claim C2: with `pixel_sample = k > 1`, every output pixel of the
tile whose column or row is not a multiple of `k` is invalid in both
the disparity and the spread outputs. -/
theorem c2_stride_skips_pixels (s : Scene) (bbox : Box2i)
    (sp0 : IPt → Option IPt) (p : IPt)
    (_hk : 1 < s.pixelSample) (hin : memBox bbox p)
    (hns : p.1 % s.pixelSample ≠ 0 ∨ p.2 % s.pixelSample ≠ 0) :
    (prerasterizeDD s bbox sp0).1 p = none ∧
    (prerasterizeDD s bbox sp0).2 p = none := by
  have hb := bracketAt_not_sampled s bbox p hns
  constructor
  · show dispAt s bbox p = _
    rw [dispAt_eq_bracket, hb]; rfl
  · show spreadAfter s bbox sp0 p = _
    rw [spreadAfter_eq_bracket s bbox sp0 p hin, hb]; rfl

theorem c2_witness :
    (1 : ℤ) < sceneStride.pixelSample ∧
    memBox box4 (1, 2) ∧
    ((1 : ℤ) % sceneStride.pixelSample ≠ 0 ∨
      (2 : ℤ) % sceneStride.pixelSample ≠ 0) ∧
    (prerasterizeDD sceneStride box4 spInit).1 (1, 2) = none ∧
    (prerasterizeDD sceneStride box4 spInit).2 (1, 2) = none :=
  ⟨by decide, by decide, by decide,
    c2_stride_skips_pixels sceneStride box4 spInit (1, 2)
      (by decide) (by decide) (by decide)⟩

/-- Claim C3: `prerasterize(bbox)` is deterministic and free of hidden
progressive state: the disparity block does not depend on the prior
contents of the spread image, and a second identical call returns the
identical disparity block and leaves the spread image unchanged. -/
theorem c3_prerasterize_deterministic (s : Scene) (bbox : Box2i)
    (sp0 sp1 : IPt → Option IPt) :
    (prerasterizeDD s bbox sp0).1 = (prerasterizeDD s bbox sp1).1 ∧
    (prerasterizeDD s bbox ((prerasterizeDD s bbox sp0).2)).1 =
      (prerasterizeDD s bbox sp0).1 ∧
    (prerasterizeDD s bbox ((prerasterizeDD s bbox sp0).2)).2 =
      (prerasterizeDD s bbox sp0).2 := by
  refine ⟨rfl, rfl, ?_⟩
  funext p
  show spreadAfter s bbox (fun q => spreadAfter s bbox sp0 q) p =
    spreadAfter s bbox sp0 p
  unfold spreadAfter
  by_cases h : memBox bbox p
  · rw [if_pos h, if_pos h]
  · simp only [if_neg h]

/-- Claim C4 (counterexample to the claim as stated): a disparity
search bracket of zero width at the nonzero offset `(5,7)` (the bracket
minimum equals the bracket maximum) does not leave the pixel invalid —
the code only rejects a search range equal to `BBox2f(0,0,0,0)`, so the
pixel is written valid with disparity `(5,7)` and zero spread. -/
theorem c4_counterexample :
    bracketAt sceneZeroWidth box1 (0, 0) = some (((5 : ℚ), 7), ((5 : ℚ), 7)) ∧
    (prerasterizeDD sceneZeroWidth box1 spInit).1 (0, 0) = some ((5 : ℚ), 7) ∧
    (prerasterizeDD sceneZeroWidth box1 spInit).2 (0, 0) = some ((0 : ℤ), 0) := by
  decide

/-- Claim C4 (amended): a pixel is rejected as invalid exactly when the
ray/DEM intersection failed or the computed search range equals the
sentinel `BBox2f(0,0,0,0)`; in particular a zero-width bracket at a
nonzero offset is accepted (valid, with zero spread). -/
theorem c4_only_zero_sentinel_rejected (s : Scene) (cb : Option RawBox)
    (prev : V3) (col row : ℤ) :
    (perPixel s cb prev col row).1 =
      (pixelSearchRange s cb prev col row).bind
        (fun rng => if rng = zeroBox then none else some rng) := by
  unfold perPixel pixelSearchRange
  rcases h : lowResPixToDemXyz s.cam s.txLeftRev s.downsampleScale s.demError
      (s.intersectCrop cb) s.heightGuess prev ((col : ℚ), (row : ℚ)) with ⟨o, p2⟩
  cases o with
  | none => rfl
  | some vx =>
    rcases vx with ⟨vec, xyz⟩
    simp only [Option.bind_eq_bind, Option.some_bind]
    split <;> rfl

/-- Fixedness of the intersection tolerances: `lowResPixToDemXyz`
invokes the ray/DEM intersector only at the tolerance parameters
`demTolParams demError`, so its result depends on the intersector only
through its behaviour at those hard-coded values. -/
lemma lowRes_tol_hardcoded (cam : V2 → Option (V3 × V3)) (txRev : V2 → V2)
    (scale : V2) (e : ℚ)
    (f g : TolParams → V3 → V3 → V3 → ℚ → Bool × V3) (hG : ℚ)
    (prev : V3) (pix : V2)
    (hfg : ∀ ctr vec pv h, f (demTolParams e) ctr vec pv h =
      g (demTolParams e) ctr vec pv h) :
    lowResPixToDemXyz cam txRev scale e f hG prev pix =
      lowResPixToDemXyz cam txRev scale e g hG prev pix := by
  unfold lowResPixToDemXyz
  cases cam (txRev (pix.1 / scale.1, pix.2 / scale.2)) with
  | none => rfl
  | some cv =>
    rcases cv with ⟨ctr, vec⟩
    simp only [hfg]

/-- Claim C5 (amended): the ray/DEM intersection uses exactly the
numeric policy `height_error_tol = max(dem_error/4, 1)`,
`max_abs_tol = height_error_tol/4`, `max_rel_tol = 1e-14`,
`num_max_iter = 50`; these values are hard-coded inside
`lowResPixToDemXyz` — the only caller-visible knob is `dem_error`
itself, and the result of `lowResPixToDemXyz` is invariant under any
change of the intersector's behaviour away from
`demTolParams dem_error`. -/
theorem c5_tolerance_policy :
    (∀ e : ℚ, demTolParams e =
      ⟨max (e / 4) 1, (max (e / 4) 1) / 4, 1 / 10 ^ 14, 50⟩) ∧
    (∀ (cam : V2 → Option (V3 × V3)) (txRev : V2 → V2) (scale : V2) (e : ℚ)
      (f g : TolParams → V3 → V3 → V3 → ℚ → Bool × V3) (hG : ℚ)
      (prev : V3) (pix : V2),
      (∀ ctr vec pv h, f (demTolParams e) ctr vec pv h =
        g (demTolParams e) ctr vec pv h) →
      lowResPixToDemXyz cam txRev scale e f hG prev pix =
        lowResPixToDemXyz cam txRev scale e g hG prev pix) :=
  ⟨fun _ => rfl,
    fun cam txRev scale e f g hG prev pix hfg =>
      lowRes_tol_hardcoded cam txRev scale e f g hG prev pix hfg⟩

/-- Claim C5 (counterexample to the claim as stated): with
`dem_error = 3` no caller input of `lowResPixToDemXyz` can reach the
intersector at any tolerance setting other than `demTolParams 3` — two
intersectors agreeing at `demTolParams 3` are indistinguishable, i.e.
the tolerance parameters are not configurable by the caller. -/
theorem c5_counterexample :
    ¬ ∃ (cam : V2 → Option (V3 × V3)) (txRev : V2 → V2) (scale : V2)
      (f g : TolParams → V3 → V3 → V3 → ℚ → Bool × V3) (hG : ℚ)
      (prev : V3) (pix : V2),
      (∀ ctr vec pv h, f (demTolParams 3) ctr vec pv h =
        g (demTolParams 3) ctr vec pv h) ∧
      lowResPixToDemXyz cam txRev scale 3 f hG prev pix ≠
        lowResPixToDemXyz cam txRev scale 3 g hG prev pix := by
  rintro ⟨cam, txRev, scale, f, g, hG, prev, pix, hfg, hne⟩
  exact hne (lowRes_tol_hardcoded cam txRev scale 3 f g hG prev pix hfg)

theorem c5_witness :
    demTolParams 3 = ⟨1, 1 / 4, 1 / 10 ^ 14, 50⟩ ∧
    (∀ ctr vec pv h, probeAllTol (demTolParams 3) ctr vec pv h =
      probeIterTol (demTolParams 3) ctr vec pv h) ∧
    lowResPixToDemXyz (fun _ => some (((0 : ℚ), 0, 0), ((0 : ℚ), 0, 1))) id
        ((1 : ℚ), 1) 3 probeAllTol 0 ((0 : ℚ), 0, 0) ((0 : ℚ), 0) =
      lowResPixToDemXyz (fun _ => some (((0 : ℚ), 0, 0), ((0 : ℚ), 0, 1))) id
        ((1 : ℚ), 1) 3 probeIterTol 0 ((0 : ℚ), 0, 0) ((0 : ℚ), 0) := by
  have hfg : ∀ ctr vec pv h, probeAllTol (demTolParams 3) ctr vec pv h =
      probeIterTol (demTolParams 3) ctr vec pv h := by
    intro ctr vec pv h; rfl
  exact ⟨(c5_tolerance_policy).1 3, hfg,
    (c5_tolerance_policy).2 (fun _ => some (((0 : ℚ), 0, 0), ((0 : ℚ), 0, 1)))
      id ((1 : ℚ), 1) 3 probeAllTol probeIterTol 0 ((0 : ℚ), 0, 0)
      ((0 : ℚ), 0) hfg⟩

lemma growBoxPt_self (b : Option RawBox) (p : IPt) :
    ∃ r, growBoxPt b p = some r ∧ inRawI r p := by
  cases b with
  | none => exact ⟨(p, p), rfl, le_refl _, le_refl _, le_refl _, le_refl _⟩
  | some bx =>
    rcases bx with ⟨mn, mx⟩
    refine ⟨_, rfl, ?_, ?_, ?_, ?_⟩
    · exact min_le_right mn.1 p.1
    · exact le_max_right mx.1 p.1
    · exact min_le_right mn.2 p.2
    · exact le_max_right mx.2 p.2

lemma growBoxPt_mono (bx : RawBox) (p q : IPt) (hq : inRawI bx q) :
    ∃ r, growBoxPt (some bx) p = some r ∧ inRawI r q := by
  rcases bx with ⟨mn, mx⟩
  refine ⟨_, rfl, ?_, ?_, ?_, ?_⟩
  · exact le_trans (min_le_left mn.1 p.1) hq.1
  · exact le_trans hq.2.1 (le_max_left mx.1 p.1)
  · exact le_trans (min_le_left mn.2 p.2) hq.2.2.1
  · exact le_trans hq.2.2.2 (le_max_left mx.2 p.2)

lemma diagScan_extends (s : Scene) :
    ∀ (pts : List V2) (prev : V3) (bx : RawBox) (q : IPt), inRawI bx q →
      ∃ r, diagScan s prev (some bx) pts = some r ∧ inRawI r q := by
  intro pts
  induction pts with
  | nil => intro prev bx q hq; exact ⟨bx, rfl, hq⟩
  | cons pt rest ih =>
    intro prev bx q hq
    simp only [diagScan]
    rcases hl : lowResPixToDemXyz s.cam s.txLeftRev s.downsampleScale s.demError
        s.intersectFull s.heightGuess prev pt with ⟨o, p2⟩
    cases o with
    | none => exact ih p2 bx q hq
    | some vx =>
      rcases vx with ⟨vec, xyz⟩
      show ∃ r, diagScan s p2 (growBoxPt (some bx) (s.demPix xyz)) rest =
        some r ∧ inRawI r q
      obtain ⟨bx2, hbx2, hq2⟩ := growBoxPt_mono bx (s.demPix xyz) q hq
      rw [hbx2]
      exact ih p2 bx2 q hq2

lemma diagScan_covers_hits (s : Scene) :
    ∀ (pts : List V2) (prev : V3) (b : Option RawBox) (q : IPt),
      q ∈ diagHitList s prev pts →
      ∃ r, diagScan s prev b pts = some r ∧ inRawI r q := by
  intro pts
  induction pts with
  | nil => intro prev b q hq; exact absurd hq (by simp [diagHitList])
  | cons pt rest ih =>
    intro prev b q hq
    simp only [diagScan]
    simp only [diagHitList] at hq
    rcases hl : lowResPixToDemXyz s.cam s.txLeftRev s.downsampleScale s.demError
        s.intersectFull s.heightGuess prev pt with ⟨o, p2⟩
    rw [hl] at hq
    cases o with
    | none => exact ih p2 b q hq
    | some vx =>
      rcases vx with ⟨vec, xyz⟩
      show ∃ r, diagScan s p2 (growBoxPt b (s.demPix xyz)) rest =
        some r ∧ inRawI r q
      have hq2 : q ∈ s.demPix xyz :: diagHitList s p2 rest := hq
      rcases List.mem_cons.mp hq2 with hq0 | hqr
      · subst hq0
        obtain ⟨bx1, hbx1, hmem1⟩ := growBoxPt_self b (s.demPix xyz)
        rw [hbx1]
        exact diagScan_extends s rest p2 bx1 (s.demPix xyz) hmem1
      · exact ih p2 (growBoxPt b (s.demPix xyz)) q hqr

/-- Claim C6 (amended): the DEM crop box of a tile is grown only from
the ray/DEM intersections of the samples on the tile's two diagonals,
expanded by `max(100, (max(width, height) of the grown box)/10)` pixels
— a margin independent of `dem_error` — and clipped to the DEM's
bounding box; every DEM pixel hit by a successful diagonal sample that
lies within the DEM's bounds is covered by the final crop box. -/
theorem c6_diag_hits_covered (s : Scene) (bbox : Box2i) (q : IPt)
    (hq : q ∈ demDiagHits s bbox) (hin : inRawE s.demBBox q) :
    ∃ b, demBoxFinal s bbox = some b ∧ inRawE b q := by
  obtain ⟨r, hr, hmem⟩ := diagScan_covers_hits s (diagPoints bbox)
    ((0 : ℚ), (0 : ℚ), (0 : ℚ)) none q hq
  have hcov : ∀ e : ℤ, 100 ≤ e →
      inRawE (cropBox (expandBox r e) s.demBBox) q := by
    intro e he
    obtain ⟨hm1, hm2, hm3, hm4⟩ := hmem
    obtain ⟨hb1, hb2, hb3, hb4⟩ := hin
    simp only [inRawE, cropBox, expandBox]
    exact ⟨max_le (by omega) hb1, lt_min (by omega) hb2,
      max_le (by omega) hb3, lt_min (by omega) hb4⟩
  unfold demBoxFinal
  rw [hr]
  exact ⟨_, rfl, hcov _ (le_max_left _ _)⟩

/-- Claim C6 (counterexample to the claim as stated): in
`sceneDiagMiss` every diagonal sample of the 64×64 tile hits DEM pixel
`(0,0)`, so the final crop box is `[0,100)×[0,100)`; yet the ray of the
interior tile pixel `(1,2)` hits DEM pixel `(500,500)`, inside the
DEM's bounds but not covered by the crop — and the expansion margin is
`100`, unrelated to `dem_error = 0`. -/
theorem c6_counterexample :
    memBox box64 (1, 2) ∧
    demHitPix sceneDiagMiss ((0 : ℚ), 0, 0) ((1 : ℚ), 2) = some (500, 500) ∧
    inRawE sceneDiagMiss.demBBox (500, 500) ∧
    demBoxFinal sceneDiagMiss box64 = some ((0, 0), (100, 100)) ∧
    ¬ inRawE ((0, 0), (100, 100)) (500, 500) := by
  refine ⟨by decide, by decide, by decide, by decide, by decide⟩

theorem c6_witness :
    (0, 0) ∈ demDiagHits sceneDiagMiss box64 ∧
    inRawE sceneDiagMiss.demBBox (0, 0) ∧
    ∃ b, demBoxFinal sceneDiagMiss box64 = some b ∧ inRawE b (0, 0) :=
  ⟨by decide, by decide,
    c6_diag_hits_covered sceneDiagMiss box64 (0, 0) (by decide) (by decide)⟩

lemma foldl_growRange_minle :
    ∀ (l : List V2) (acc : V2 × V2),
      acc.1.1 ≤ acc.2.1 → acc.1.2 ≤ acc.2.2 →
      (l.foldl growRange acc).1.1 ≤ (l.foldl growRange acc).2.1 ∧
      (l.foldl growRange acc).1.2 ≤ (l.foldl growRange acc).2.2 := by
  intro l
  induction l with
  | nil => intro acc h1 h2; exact ⟨h1, h2⟩
  | cons a rest ih =>
    intro acc h1 h2
    refine ih (growRange acc a) ?_ ?_
    · exact le_trans (min_le_left acc.1.1 a.1)
        (le_trans h1 (le_max_left acc.2.1 a.1))
    · exact le_trans (min_le_left acc.1.2 a.2)
        (le_trans h2 (le_max_left acc.2.2 a.2))

lemma getDisparityRange_minle (l : List V2) :
    (getDisparityRange l).1.1 ≤ (getDisparityRange l).2.1 ∧
    (getDisparityRange l).1.2 ≤ (getDisparityRange l).2.2 := by
  cases l with
  | nil => exact ⟨le_refl 0, le_refl 0⟩
  | cons a rest =>
    exact foldl_growRange_minle rest (a, a) (le_refl a.1) (le_refl a.2)

lemma perPixel_some_minle (s : Scene) (cb : Option RawBox) (prev : V3)
    (col row : ℤ) (rng : V2 × V2)
    (h : (perPixel s cb prev col row).1 = some rng) :
    rng.1.1 ≤ rng.2.1 ∧ rng.1.2 ≤ rng.2.2 := by
  unfold perPixel at h
  rcases hl : lowResPixToDemXyz s.cam s.txLeftRev s.downsampleScale s.demError
      (s.intersectCrop cb) s.heightGuess prev ((col : ℚ), (row : ℚ)) with ⟨o, p2⟩
  rw [hl] at h
  cases o with
  | none => exact absurd h (by simp)
  | some vx =>
    rcases vx with ⟨vec, xyz⟩
    have h2 : (if getDisparityRange
          (dispEntries s ((col : ℚ), (row : ℚ)) vec xyz) = zeroBox
        then ((none : Option (V2 × V2)), p2)
        else (some (getDisparityRange
          (dispEntries s ((col : ℚ), (row : ℚ)) vec xyz)), p2)).1 =
        some rng := h
    by_cases hz : getDisparityRange
        (dispEntries s ((col : ℚ), (row : ℚ)) vec xyz) = zeroBox
    · rw [if_pos hz] at h2; exact absurd h2 (by simp)
    · rw [if_neg hz] at h2
      have hrng : rng = getDisparityRange
          (dispEntries s ((col : ℚ), (row : ℚ)) vec xyz) := by
        simpa using h2.symm
      rw [hrng]
      exact getDisparityRange_minle _

lemma bracketScan_lookup_minle (s : Scene) (cb : Option RawBox) (row : ℤ) :
    ∀ (cols : List ℤ) (prev : V3) (c : ℤ) (rng : V2 × V2),
      lookupCol c (bracketScanCols s cb row prev cols) = some rng →
      rng.1.1 ≤ rng.2.1 ∧ rng.1.2 ≤ rng.2.2 := by
  intro cols
  induction cols with
  | nil => intro prev c rng h; exact absurd h (by simp [bracketScanCols, lookupCol])
  | cons c0 rest ih =>
    intro prev c rng h
    rw [bracketScanCols] at h
    by_cases hc0 : c0 % s.pixelSample ≠ 0
    · rw [if_pos hc0] at h; exact ih prev c rng h
    · rw [if_neg hc0] at h
      rcases hp : perPixel s cb prev c0 row with ⟨o, p2⟩
      rw [hp] at h
      cases o with
      | none => exact ih p2 c rng h
      | some rng0 =>
        by_cases hcc : c = c0
        · rw [lookupCol, if_pos hcc] at h
          have : rng0 = rng := by simpa using h
          rw [← this]
          exact perPixel_some_minle s cb prev c0 row rng0 (by rw [hp])
        · rw [lookupCol, if_neg hcc] at h
          exact ih p2 c rng h

lemma bracketAt_minle (s : Scene) (bbox : Box2i) (p : IPt) (rng : V2 × V2)
    (h : bracketAt s bbox p = some rng) :
    rng.1.1 ≤ rng.2.1 ∧ rng.1.2 ≤ rng.2.2 := by
  unfold bracketAt at h
  by_cases hg : memBox bbox p ∧ p.2 % s.pixelSample = 0
  · rw [if_pos hg] at h
    exact bracketScan_lookup_minle s (demBoxFinal s bbox) p.2 (colList bbox)
      ((0 : ℚ), (0 : ℚ), (0 : ℚ)) p.1 rng h
  · rw [if_neg hg] at h; exact absurd h (by simp)

/-- Claim C8 (amended): wherever the spread output is valid inside the
tile it is a componentwise non-negative vector.  (The second half of
the original claim — monotonicity of the spread in `dem_error` — fails;
see the counterexample.) -/
theorem c8_spread_nonneg (s : Scene) (bbox : Box2i)
    (sp0 : IPt → Option IPt) (p : IPt) (v : IPt)
    (hin : memBox bbox p)
    (hv : (prerasterizeDD s bbox sp0).2 p = some v) :
    0 ≤ v.1 ∧ 0 ≤ v.2 := by
  have hv2 : spreadAfter s bbox sp0 p = some v := hv
  rw [spreadAfter_eq_bracket s bbox sp0 p hin] at hv2
  rcases hb : bracketAt s bbox p with _ | rng
  · rw [hb] at hv2; exact absurd hv2 (by simp)
  · rw [hb] at hv2
    have hv3 : v = ceilV2 (halfV2 rng.1 rng.2) := by simpa using hv2.symm
    obtain ⟨h1, h2⟩ := bracketAt_minle s bbox p rng hb
    rw [hv3]
    constructor
    · exact Int.ceil_nonneg (by unfold halfV2; dsimp only; linarith)
    · exact Int.ceil_nonneg (by unfold halfV2; dsimp only; linarith)

theorem c8_witness :
    memBox box1 (0, 0) ∧
    (prerasterizeDD sceneZeroWidth box1 spInit).2 (0, 0) = some ((0 : ℤ), 0) ∧
    (0 : ℤ) ≤ 0 ∧ (0 : ℤ) ≤ 0 :=
  ⟨by decide, by decide,
    c8_spread_nonneg sceneZeroWidth box1 spInit (0, 0) ((0 : ℤ), 0)
      (by decide) (by decide)⟩

/-- Claim C8 (counterexample to the claim as stated): in the
`sceneWindow` family the only varying input is `dem_error`, yet the
valid spread at pixel `(0,0)` has first component `10` at
`dem_error = 1` and `0` at `dem_error = 8` — the spread is not
monotonically non-decreasing in `dem_error`. -/
theorem c8_counterexample :
    (1 : ℚ) < 8 ∧
    (prerasterizeDD (sceneWindow 1) box1 spInit).2 (0, 0) = some ((10 : ℤ), 0) ∧
    (prerasterizeDD (sceneWindow 8) box1 spInit).2 (0, 0) = some ((0 : ℤ), 0) ∧
    ¬ ((10 : ℤ) ≤ 0) := by
  exact ⟨by decide, by decide, by decide, by decide⟩

/-- Claim C7 (counterexample to the claim as stated):
`produce_dem_disparity` accepts `disparity_estimation_dem_error = 0` —
a non-positive tolerance — without raising any error, because the
source only rejects strictly negative values. -/
theorem c7_counterexample :
    produceDemDisparityConfigCheck demTifName 0 true = none ∧ ¬ (0 < (0 : ℚ)) :=
  ⟨by decide, lt_irrefl 0⟩

/-- Claim C7 (amended): `produce_dem_disparity` raises a fatal
configuration error exactly when no disparity-estimation DEM file is
provided, when the DEM error tolerance is strictly negative (zero is
accepted), or when the DEM file carries no georeference; in every
other configuration no error is raised and the run proceeds. -/
theorem c7_config_errors (demFile : String) (demError : ℚ)
    (hasGeoref : Bool) :
    produceDemDisparityConfigCheck demFile demError hasGeoref = none ↔
      (demFile ≠ "" ∧ 0 ≤ demError ∧ hasGeoref = true) := by
  unfold produceDemDisparityConfigCheck
  by_cases h1 : demFile = ""
  · simp [h1]
  · by_cases h2 : demError < 0
    · simp [h1, h2]
    · cases hasGeoref with
      | false => simp [h1, h2]
      | true => simp [h1, h2, not_lt.mp h2]

lemma sumsq_pos_of_ne_zero (v : V3R)
    (h : v ≠ ((0 : ℝ), (0 : ℝ), (0 : ℝ))) :
    0 < v.1 ^ 2 + v.2.1 ^ 2 + v.2.2 ^ 2 := by
  rcases v with ⟨x, y, z⟩
  by_contra hc
  push_neg at hc
  have hx : x = 0 := by
    have h1 : x ^ 2 ≤ 0 := by nlinarith [sq_nonneg y, sq_nonneg z]
    exact sq_eq_zero_iff.mp (le_antisymm h1 (sq_nonneg x))
  have hy : y = 0 := by
    have h1 : y ^ 2 ≤ 0 := by nlinarith [sq_nonneg x, sq_nonneg z]
    exact sq_eq_zero_iff.mp (le_antisymm h1 (sq_nonneg y))
  have hz : z = 0 := by
    have h1 : z ^ 2 ≤ 0 := by nlinarith [sq_nonneg x, sq_nonneg y]
    exact sq_eq_zero_iff.mp (le_antisymm h1 (sq_nonneg z))
  exact h (by rw [hx, hy, hz])

lemma norm_2R_div (v : V3R) (r : ℝ) (hr : 0 < r) :
    norm_2R (v3divR v r) = norm_2R v / r := by
  unfold norm_2R v3divR
  dsimp only
  rw [div_pow, div_pow, div_pow, div_add_div_same, div_add_div_same,
    Real.sqrt_div (by positivity), Real.sqrt_sq hr.le]

lemma v3divR_eq_scale (v : V3R) (r : ℝ) :
    v3divR v r = v3scaleR (1 / r) v := by
  unfold v3divR v3scaleR
  rw [Prod.ext_iff, Prod.ext_iff]
  refine ⟨by ring, by ring, by ring⟩

/-- Claim C9: at every pixel where the sensor resolves a ground point
distinct from the camera centre, `CsmModel::pixel_to_vector` returns a
direction of unit Euclidean norm, equal to a positive scalar multiple
of the vector from the camera centre to the ground point imaged at
that pixel. -/
theorem c9_pixel_to_vector_normalized (m : CsmCamera) (pix : V2R)
    (hne : csmDir m pix ≠ ((0 : ℝ), (0 : ℝ), (0 : ℝ))) :
    norm_2R (pixel_to_vector m pix) = 1 ∧
    ∃ t : ℝ, 0 < t ∧
      pixel_to_vector m pix = v3scaleR t (csmDir m pix) := by
  have hpos : 0 < norm_2R (csmDir m pix) :=
    Real.sqrt_pos.mpr (sumsq_pos_of_ne_zero (csmDir m pix) hne)
  have hptv : pixel_to_vector m pix =
      v3divR (csmDir m pix) (norm_2R (csmDir m pix)) := rfl
  constructor
  · rw [hptv, norm_2R_div (csmDir m pix) (norm_2R (csmDir m pix)) hpos,
      div_self (ne_of_gt hpos)]
  · exact ⟨1 / norm_2R (csmDir m pix), by positivity,
      by rw [hptv]; exact v3divR_eq_scale (csmDir m pix) _⟩

theorem c9_witness :
    csmDir csmW ((0 : ℝ), 0) ≠ ((0 : ℝ), (0 : ℝ), (0 : ℝ)) ∧
    norm_2R (pixel_to_vector csmW ((0 : ℝ), 0)) = 1 ∧
    ∃ t : ℝ, 0 < t ∧ pixel_to_vector csmW ((0 : ℝ), 0) =
      v3scaleR t (csmDir csmW ((0 : ℝ), 0)) := by
  have hne : csmDir csmW ((0 : ℝ), 0) ≠ ((0 : ℝ), (0 : ℝ), (0 : ℝ)) := by
    intro hcon
    have h1 := congrArg Prod.fst hcon
    simp only [csmDir, v3subR, rasterW, csmW, toCsmPixel] at h1
    norm_num at h1
  exact ⟨hne, c9_pixel_to_vector_normalized csmW ((0 : ℝ), 0) hne⟩

/-- Claim C10: the ASP↔CSM pixel-convention conversion round-trips
exactly, and the three public camera operations use the one constant
half-pixel shift consistently — `pixel_to_vector` and `camera_center`
add it to their input pixel (i.e. evaluate the CSM model at
`toCsmPixel`), and `point_to_pixel` subtracts it from the CSM result
(i.e. returns `fromCsmPixel` of `groundToImage`). -/
theorem c10_pixel_convention_consistent :
    (∀ p : V2R, fromCsmPixel (toCsmPixel p) = p) ∧
    (∀ (m : CsmCamera) (p : V2R),
      pixel_to_vector m p = pixelToVectorFromCsm m (toCsmPixel p)) ∧
    (∀ (m : CsmCamera) (p : V2R),
      camera_center m p = m.csm.getSensorPosition (toCsmPixel p)) ∧
    (∀ (m : CsmCamera) (x : V3R),
      point_to_pixel m x =
        fromCsmPixel (m.csm.groundToImage x m.desired_precision)) := by
  refine ⟨?_, fun m p => rfl, fun m p => rfl, fun m x => rfl⟩
  intro p
  unfold fromCsmPixel toCsmPixel ASP_TO_CSM_SHIFT
  rw [Prod.ext_iff]
  exact ⟨by ring, by ring⟩
